import Mathlib

/-!
Shallow embedding of the thinnect/node-filesystem SPIFFS wrapper
(the complete multi-filesystem snapshot: `fs.c` with queues, user tokens
and suspend management) together with the record read/write worker.

External collaborators (the SPIFFS engine and the flash driver) are
modelled as oracles: each engine primitive's result is a parameter of the
embedded function, so the embedding captures exactly the wrapper's own
control flow and arithmetic.

C machine integers are modelled as follows: `fs_fd` (`int32_t`) and all
engine results are `Int`; `mount_count` (`uint8_t`) is a `Nat` carrying
the invariant `< 256`, incremented as `(c + 1) % 256` (unsigned wraparound).
`(mount_count << 16) | sfd` never exceeds `0xFF0000 + 0xFFFF < 2^31`, so
no `int32_t` overflow reduction is needed for descriptor stamping.
-/

namespace NodeFs

/-- Constant `SPIFFS_OK` from the SPIFFS engine headers. -/
def SPIFFS_OK : Int := 0

/-- Models the C expression `(fd >> 16) & 0xFF` on an `int32_t` value:
arithmetic right shift is floor division by `2^16`, and masking the low
8 bits of a two's-complement value is the nonnegative remainder mod 256.
(`/` and `%` on `Int` are Euclidean division, which for the positive
divisors used here is exactly floor division with nonnegative remainder.) -/
def fd_gen (fd : Int) : Int := fd / 65536 % 256

/-- Models the C expression `fd & 0xFFFF` on an `int32_t` value. -/
def fd_raw (fd : Int) : Int := fd % 65536

/-- The per-instance state of `struct fs_struct`.  The C struct also holds
the driver/partition binding, the SPIFFS config and working buffers; those
are opaque engine/driver state, represented here only by what the wrapper
itself reads: whether a driver was configured (`fs[f].driver != NULL`),
whether the driver provides a `suspend` primitive, the `ready` flag and
the `mount_count` generation counter. -/
structure fs_struct where
  configured : Bool
  has_suspend : Bool
  ready : Bool
  mount_count : Nat
  deriving Repr, DecidableEq

/-- Function `fs_init`: clears `ready` and `mount_count` for a configured instance. -/
def fs_init (has_susp : Bool) : fs_struct :=
  { configured := true, has_suspend := has_susp, ready := false, mount_count := 0 }

/-- Function `fs_open`: waits for `ready` (modelled as `none` — the `while(!fs[f].ready);`
spin never terminates on a not-ready instance), asks the engine for a raw
descriptor `sfd` (oracle argument), computes
`fd = (fs[f].mount_count << 16) | sfd`, and returns `sfd` itself when the
engine failed (`sfd < 0`), the stamped `fd` otherwise. -/
def fs_open (st : fs_struct) (sfd : Int) : Option Int :=
  if st.ready = false then none
  else
    let fd : Int := (((st.mount_count <<< 16) ||| sfd.toNat : Nat) : Int)
    if sfd < 0 then some sfd else some fd

/-- Function `fs_read`: after the ready-wait, compares `(fd >> 16) & 0xFF` with
`mount_count`; on mismatch returns `-1` without touching the engine,
otherwise returns `SPIFFS_read(fs, fd & 0xFFFF, buf, len)` (oracle).
The `Bool` records whether the engine primitive was invoked. -/
def fs_read (st : fs_struct) (fd : Int) (spiffs_read : Int → Int) :
    Option (Int × Bool) :=
  if st.ready = false then none
  else if fd_gen fd ≠ (st.mount_count : Int) then some (-1, false)
  else some (spiffs_read (fd_raw fd), true)

/-- Function `fs_write`: same descriptor discipline as `fs_read`, engine call
`SPIFFS_write(fs, fd & 0xFFFF, buf, len)` supplied as an oracle. -/
def fs_write (st : fs_struct) (fd : Int) (spiffs_write : Int → Int) :
    Option (Int × Bool) :=
  if st.ready = false then none
  else if fd_gen fd ≠ (st.mount_count : Int) then some (-1, false)
  else some (spiffs_write (fd_raw fd), true)

/-- Function `fs_lseek`: same descriptor discipline, engine `SPIFFS_lseek`. -/
def fs_lseek (st : fs_struct) (fd : Int) (offs : Int) (whence : Int)
    (spiffs_lseek : Int → Int → Int → Int) : Option (Int × Bool) :=
  if st.ready = false then none
  else if fd_gen fd ≠ (st.mount_count : Int) then some (-1, false)
  else some (spiffs_lseek (fd_raw fd) offs whence, true)

/-- Function `fs_fstat`: same descriptor discipline, engine `SPIFFS_fstat`
returning a status and the stat size copied into the caller's buffer. -/
def fs_fstat (st : fs_struct) (fd : Int) (spiffs_fstat : Int → Int × Int) :
    Option (Int × Option Int × Bool) :=
  if st.ready = false then none
  else if fd_gen fd ≠ (st.mount_count : Int) then some (-1, none, false)
  else
    let r := spiffs_fstat (fd_raw fd)
    some (r.1, some r.2, true)

/-- Function `fs_flush`: a `void` operation; on generation mismatch it only logs
`"stale fd"`. The result records whether `SPIFFS_fflush` was invoked. -/
def fs_flush (st : fs_struct) (fd : Int) : Option Bool :=
  if st.ready = false then none
  else if fd_gen fd ≠ (st.mount_count : Int) then some false
  else some true

/-- Function `fs_close`: a `void` operation; on generation mismatch it does nothing.
The result records whether `SPIFFS_close` was invoked. -/
def fs_close (st : fs_struct) (fd : Int) : Option Bool :=
  if st.ready = false then none
  else if fd_gen fd ≠ (st.mount_count : Int) then some false
  else some true

/-- The engine primitives `fs_mount` can invoke, in call order. -/
inductive EngineCall where
  | mount
  | format
  | info
  deriving Repr, DecidableEq

/-- Oracle results for one `fs_mount` loop iteration: the first
`SPIFFS_mount`, `SPIFFS_format`, the retry `SPIFFS_mount` and
`SPIFFS_info` (the latter two only consumed on the paths that reach them). -/
structure MountRes where
  mnt1 : Int
  fmt : Int
  mnt2 : Int
  info : Int
  deriving Repr, DecidableEq

/-- One iteration of the `fs_mount` loop body for instance `st` with engine
results `r`: skip unconfigured instances; mount, on failure format and
retry-mount once; on final success query `SPIFFS_info` and set `ready`;
in all configured cases increment the `uint8_t` `mount_count`.  Returns the
new state and the list of engine primitives invoked. -/
def fs_mount_instance (st : fs_struct) (r : MountRes) :
    fs_struct × List EngineCall :=
  if st.configured = false then (st, [])
  else
    let first : Int × List EngineCall :=
      if r.mnt1 ≠ SPIFFS_OK then
        (r.mnt2, [EngineCall.mount, EngineCall.format, EngineCall.mount])
      else (r.mnt1, [EngineCall.mount])
    let second : fs_struct × List EngineCall :=
      if first.1 = SPIFFS_OK then
        ({ st with ready := true }, first.2 ++ [EngineCall.info])
      else (st, first.2)
    ({ second.1 with mount_count := (second.1.mount_count + 1) % 256 },
     second.2)

/-! ### Record API and worker -/

/-- Command code `FS_WRITE_DATA`. -/
def FS_WRITE_DATA : Nat := 1

/-- Command code `FS_READ_DATA`. -/
def FS_READ_DATA : Nat := 2

/-- Constant `FS_MAX_COUNT` (default configuration of the snapshot). -/
def FS_MAX_COUNT : Nat := 1

/-- Constant `MAX_Q_WR_COUNT`: capacity of the write request queue. -/
def MAX_Q_WR_COUNT : Nat := 10

/-- Constant `MAX_Q_RD_COUNT`: capacity of the read request queue. -/
def MAX_Q_RD_COUNT : Nat := 10

/-- Flag value `FS_WRITE_FLAG = 0x01 << FS_MAX_COUNT`. -/
def FS_WRITE_FLAG : Nat := 1 <<< FS_MAX_COUNT

/-- Flag value `FS_READ_FLAG = 0x01 << (FS_MAX_COUNT + 1)`. -/
def FS_READ_FLAG : Nat := 1 <<< (FS_MAX_COUNT + 1)

/-- Outcome of `fs_rw_record`, seen from the caller: `accepted` carries the
new queue contents, the thread-flag value signalled to the worker and the
return value; `rejected` is an immediate return (`0`); `blocked` is the
`wait != 0` caller blocked inside `osMessageQueuePut` on a full queue
(it returns only once space appears). -/
inductive RwOutcome where
  | accepted (q : List Nat) (flags : Nat) (ret : Int)
  | rejected (ret : Int)
  | blocked
  deriving Repr, DecidableEq

/-- Function `fs_rw_record`: dispatch on `command_type` (unknown command returns 0),
`osMessageQueuePut` the request with timeout `0` or `osWaitForever`, and on
`osOK` signal the worker with the queue's flag and return `len`; on
`osErrorResource` (full queue, `wait = 0`) return 0.  The queue is modelled
by the list of request ids it holds (`reqId` is the id of this request) and
its capacity `cap`. -/
def fs_rw_record (command_type : Nat) (len : Int) (wait : Nat)
    (q : List Nat) (cap : Nat) (reqId : Nat) : RwOutcome :=
  if command_type = FS_WRITE_DATA ∨ command_type = FS_READ_DATA then
    let flags := if command_type = FS_WRITE_DATA then FS_WRITE_FLAG else FS_READ_FLAG
    if q.length < cap then RwOutcome.accepted (q ++ [reqId]) flags len
    else if wait = 0 then RwOutcome.rejected 0
    else RwOutcome.blocked
  else RwOutcome.rejected 0

/-- Function `fs_read_record`: validates the instance number, the value pointer and
the callback pointer (null pointers modelled as `Bool` flags), then calls
`fs_rw_record` on the read queue. -/
def fs_read_record (file_sys_nr : Int) (p_value_null : Bool)
    (f_callback_null : Bool) (len : Int) (wait : Nat)
    (q : List Nat) (reqId : Nat) : RwOutcome :=
  if file_sys_nr > 2 ∨ file_sys_nr < 0 then RwOutcome.rejected 0
  else if p_value_null then RwOutcome.rejected 0
  else if f_callback_null then RwOutcome.rejected 0
  else fs_rw_record FS_READ_DATA len wait q MAX_Q_RD_COUNT reqId

/-- Function `fs_write_record`: validates the instance number and the callback
pointer, then calls `fs_rw_record` on the write queue. -/
def fs_write_record (file_sys_nr : Int) (f_callback_null : Bool)
    (len : Int) (wait : Nat) (q : List Nat) (reqId : Nat) : RwOutcome :=
  if file_sys_nr > 2 ∨ file_sys_nr < 0 then RwOutcome.rejected 0
  else if f_callback_null then RwOutcome.rejected 0
  else fs_rw_record FS_WRITE_DATA len wait q MAX_Q_WR_COUNT reqId

/-- The `osOK` branch of the worker's write processing (one dequeued
request): open the file `FS_WRONLY` (first open oracle `sfd_wr`); if that
fails, open it `FS_TRUNC|FS_CREAT|FS_WRONLY` (second open oracle `sfd_cr`)
and on failure invoke the callback with `0`; with a valid descriptor,
`fs_write`, `fs_close` and invoke the callback with the write result.
Returns the callback-argument list in invocation order, whether
`SPIFFS_write` was invoked and whether `SPIFFS_close` was invoked. -/
def fs_thread_write_case (st : fs_struct) (sfd_wr sfd_cr : Int)
    (spiffs_write : Int → Int) : Option (List Int × Bool × Bool) :=
  match fs_open st sfd_wr with
  | none => none
  | some fd0 =>
    if fd0 < 0 then
      match fs_open st sfd_cr with
      | none => none
      | some fd1 =>
        if fd1 < 0 then some ([0], false, false)
        else
          match fs_write st fd1 spiffs_write with
          | none => none
          | some r =>
            match fs_close st fd1 with
            | none => none
            | some c => some ([r.1], r.2, c)
    else
      match fs_write st fd0 spiffs_write with
      | none => none
      | some r =>
        match fs_close st fd0 with
        | none => none
        | some c => some ([r.1], r.2, c)

/-- The `osOK` branch of the worker's read processing (one dequeued
request): open the file `FS_RDONLY` (open oracle `sfd`); if the open
fails, invoke the callback with `0` without reading; otherwise `fs_read`,
`fs_close` and invoke the callback with the read result.  Returns the
callback-argument list in invocation order, whether `SPIFFS_read` was
invoked and whether `SPIFFS_close` was invoked. -/
def fs_thread_read_case (st : fs_struct) (sfd : Int)
    (spiffs_read : Int → Int) : Option (List Int × Bool × Bool) :=
  match fs_open st sfd with
  | none => none
  | some file_desc =>
    if file_desc < 0 then some ([0], false, false)
    else
      match fs_read st file_desc spiffs_read with
      | none => none
      | some r =>
        match fs_close st file_desc with
        | none => none
        | some c => some ([r.1], r.2, c)

/-! ### Request-queue transition system

Interleaving model of the two request queues, the worker's per-kind
thread flags and the worker's single shared `params` variable.  A producer
executing `fs_rw_record` performs `osMessageQueuePut` and
`osThreadFlagsSet` as two separate steps (the C code has a preemption
point between lines 813 and 817), recorded by the `*_pending` counters of
producers that have enqueued but not yet signalled.  Requests of each kind
are identified by their acceptance index on that kind's queue, so each
`*_accepted` list is `[0, 1, ...]` in acceptance order; callback
invocations are logged in `completed` as `(is_write, id)` pairs in
invocation order, and `*_processed` logs only the invocations made from an
`osOK` dequeue-processing branch.  `params` is the worker's local variable
shared by the write branch, the read branch and their failure branches —
the `osErrorResource`/default branches of `fs_thread` invoke
`params.f_callback` on whatever request `params` still holds. -/

/-- Interleaving state of the queues, flags, producers in flight and the
worker's processing history. -/
structure WorkerState where
  wr_queue : List Nat
  rd_queue : List Nat
  wr_flag : Bool
  rd_flag : Bool
  wr_pending : Nat
  rd_pending : Nat
  wr_accepted : List Nat
  rd_accepted : List Nat
  wr_processed : List Nat
  rd_processed : List Nat
  completed : List (Bool × Nat)
  params : Option (Bool × Nat)
  deriving Repr, DecidableEq

/-- Initial state: empty queues, no pending flags or producers, nothing
accepted; `params` is the worker's uninitialized local. -/
def WorkerState.init : WorkerState :=
  ⟨[], [], false, false, 0, 0, [], [], [], [], [], none⟩

/-- Atomic steps of the queue/worker system with queue capacity `cap`.
`put_wr`/`put_rd` are a producer's successful `osMessageQueuePut` (the
producer is then pending until its separate `signal_wr`/`signal_rd`
performs `osThreadFlagsSet`).  `wake_wr_deq`/`wake_rd_deq` are a worker
wake consuming that kind's flag whose `osMessageQueueGet` succeeds: the
dequeued request is processed by the `osOK` branch (one callback, cf.
`fs_thread_write_case`/`fs_thread_read_case`), `params` now holds it, and
the flag is re-raised iff `osMessageQueueGetCount` still sees a non-empty
queue.  `wake_wr_empty`/`wake_rd_empty` are a wake whose dequeue fails
(`osErrorResource`): the branch invokes the callback of the request the
stale `params` still holds. -/
inductive WStep (cap : Nat) : WorkerState → WorkerState → Prop where
  | put_wr (s : WorkerState) :
      s.wr_queue.length < cap →
      WStep cap s
        { s with wr_queue := s.wr_queue ++ [s.wr_accepted.length]
                 wr_accepted := s.wr_accepted ++ [s.wr_accepted.length]
                 wr_pending := s.wr_pending + 1 }
  | signal_wr (s : WorkerState) :
      0 < s.wr_pending →
      WStep cap s { s with wr_pending := s.wr_pending - 1, wr_flag := true }
  | put_rd (s : WorkerState) :
      s.rd_queue.length < cap →
      WStep cap s
        { s with rd_queue := s.rd_queue ++ [s.rd_accepted.length]
                 rd_accepted := s.rd_accepted ++ [s.rd_accepted.length]
                 rd_pending := s.rd_pending + 1 }
  | signal_rd (s : WorkerState) :
      0 < s.rd_pending →
      WStep cap s { s with rd_pending := s.rd_pending - 1, rd_flag := true }
  | wake_wr_deq (s : WorkerState) (r : Nat) (rest : List Nat) :
      s.wr_flag = true → s.wr_queue = r :: rest →
      WStep cap s
        { s with wr_queue := rest
                 wr_flag := !rest.isEmpty
                 wr_processed := s.wr_processed ++ [r]
                 completed := s.completed ++ [(true, r)]
                 params := some (true, r) }
  | wake_wr_empty (s : WorkerState) (p : Bool × Nat) :
      s.wr_flag = true → s.wr_queue = [] → s.params = some p →
      WStep cap s
        { s with wr_flag := false, completed := s.completed ++ [p] }
  | wake_rd_deq (s : WorkerState) (r : Nat) (rest : List Nat) :
      s.rd_flag = true → s.rd_queue = r :: rest →
      WStep cap s
        { s with rd_queue := rest
                 rd_flag := !rest.isEmpty
                 rd_processed := s.rd_processed ++ [r]
                 completed := s.completed ++ [(false, r)]
                 params := some (false, r) }
  | wake_rd_empty (s : WorkerState) (p : Bool × Nat) :
      s.rd_flag = true → s.rd_queue = [] → s.params = some p →
      WStep cap s
        { s with rd_flag := false, completed := s.completed ++ [p] }

/-- Reachability from the initial state. -/
inductive WReach (cap : Nat) : WorkerState → Prop where
  | init : WReach cap WorkerState.init
  | step (s t : WorkerState) : WReach cap s → WStep cap s t → WReach cap t

/-! ### Suspend scheduler -/

/-- Externally visible actions of the suspend machinery. -/
inductive DrvAct where
  | timer_start (f : Nat)
  | timer_stop (f : Nat)
  | thread_flag (bits : Nat)
  | mutex_acquire (f : Nat)
  | mutex_release (f : Nat)
  | drv_lock (f : Nat)
  | drv_unlock (f : Nat)
  | drv_suspend (f : Nat)
  deriving Repr, DecidableEq

/-- Function `fs_suspend_timer_cb`: the one-shot timer callback only sets the
instance's suspend thread-flag (`osThreadFlagsSet(m_thread_id, 1 << f)`). -/
def fs_suspend_timer_cb (f : Nat) : List DrvAct :=
  [DrvAct.thread_flag (1 <<< f)]

/-- The per-instance body of the worker's suspend branch: acquire the
instance mutex, take the driver lock, call `driver->suspend()` when the
driver provides one, release the driver lock, release the mutex. -/
def fs_thread_suspend_block (fsv : Nat → fs_struct) (f : Nat) : List DrvAct :=
  [DrvAct.mutex_acquire f, DrvAct.drv_lock f] ++
    (if (fsv f).has_suspend then [DrvAct.drv_suspend f] else []) ++
    [DrvAct.drv_unlock f, DrvAct.mutex_release f]

/-- The worker's suspend branch (`flags & FS_SUSPENDFLAGS` handling):
for every instance index `f < count` whose bit is set in `flags`, run the
per-instance block. -/
def fs_thread_suspend_branch (fsv : Nat → fs_struct) (flags : Nat)
    (count : Nat) : List DrvAct :=
  (List.range count).flatMap fun f =>
    if flags &&& (1 <<< f) ≠ 0 then fs_thread_suspend_block fsv f else []

/-- Trace checker: walks an action list maintaining the multiset of held
instance mutexes and held driver locks, and checks that every
`drv_suspend f` is performed while both instance `f`'s mutex and the
driver lock taken for `f` are held. -/
def locks_ok : List DrvAct → List Nat → List Nat → Bool
  | [], _, _ => true
  | a :: rest, ms, ls =>
    match a with
    | DrvAct.mutex_acquire f => locks_ok rest (f :: ms) ls
    | DrvAct.mutex_release f => locks_ok rest (ms.erase f) ls
    | DrvAct.drv_lock f => locks_ok rest ms (f :: ls)
    | DrvAct.drv_unlock f => locks_ok rest ms (ls.erase f)
    | DrvAct.drv_suspend f => ms.contains f && ls.contains f && locks_ok rest ms ls
    | _ => locks_ok rest ms ls

/-- Final held-lock state after a trace, starting from held mutexes `ms`
and held driver locks `ls`. -/
def locks_after : List DrvAct → List Nat → List Nat → List Nat × List Nat
  | [], ms, ls => (ms, ls)
  | a :: rest, ms, ls =>
    match a with
    | DrvAct.mutex_acquire f => locks_after rest (f :: ms) ls
    | DrvAct.mutex_release f => locks_after rest (ms.erase f) ls
    | DrvAct.drv_lock f => locks_after rest ms (f :: ls)
    | DrvAct.drv_unlock f => locks_after rest ms (ls.erase f)
    | _ => locks_after rest ms ls

/-- Runs the `fs_mount` loop body `n` consecutive times on one instance, with
`rs i` the engine results of run `i` (the initial boot mount plus any
later remounts). -/
def fs_mount_times (st : fs_struct) (rs : Nat → MountRes) (n : Nat) : fs_struct :=
  (List.range n).foldl (fun s i => (fs_mount_instance s (rs i)).1) st

/-- A configured, successfully mounted instance (used by concrete
witness instantiations). -/
def st_ready : fs_struct :=
  { configured := true, has_suspend := true, ready := true, mount_count := 3 }

/-- State reached after: write requests 0 and 1 are enqueued, the second
producer is preempted between its `osMessageQueuePut` and its
`osThreadFlagsSet`, the worker drains both requests via the count-based
flag re-raise, and the delayed signal then wakes the worker on an empty
queue, whose `osErrorResource` branch re-invokes the callback of the
request the stale `params` still holds — write request 1, for the second
time. -/
def w_bug : WorkerState :=
  ⟨[], [], false, false, 0, 0, [0, 1], [], [0, 1], [],
    [(true, 0), (true, 1), (true, 1)], some (true, 1)⟩

/-! ### Helper lemmas -/

/-- Stamping ORs into disjoint bit ranges, so it is plain addition. -/
theorem stamp_eq (mc sn : Nat) (hs : sn < 65536) :
    ((mc <<< 16) ||| sn) = mc * 65536 + sn := by
  have h := Nat.mul_add_lt_is_or (i := 16) (by omega : sn < 2 ^ 16) mc
  have e : (2 : Nat) ^ 16 = 65536 := by norm_num
  rw [e] at h
  rw [Nat.shiftLeft_eq, e, Nat.mul_comm mc 65536]
  exact h.symm

/-- The generation embedded in a freshly stamped descriptor is the
stamping `mount_count`. -/
theorem fd_gen_stamp (mc sn : Nat) (hmc : mc < 256) (hs : sn < 65536) :
    fd_gen ((((mc <<< 16) ||| sn : Nat)) : Int) = (mc : Int) := by
  rw [stamp_eq mc sn hs]
  unfold fd_gen
  have h : (mc * 65536 + sn) / 65536 % 256 = mc := by omega
  exact_mod_cast congrArg (Nat.cast (R := Int)) h

/-- The raw part of a freshly stamped descriptor is the engine
descriptor. -/
theorem fd_raw_stamp (mc sn : Nat) (hs : sn < 65536) :
    fd_raw ((((mc <<< 16) ||| sn : Nat)) : Int) = (sn : Int) := by
  rw [stamp_eq mc sn hs]
  unfold fd_raw
  have h : (mc * 65536 + sn) % 65536 = sn := by omega
  exact_mod_cast congrArg (Nat.cast (R := Int)) h

/-- The mount loop body bumps `mount_count` by one (as a `uint8_t`) on a
configured instance. -/
theorem fs_mount_instance_mount_count (st : fs_struct) (r : MountRes)
    (hc : st.configured = true) :
    ((fs_mount_instance st r).1).mount_count = (st.mount_count + 1) % 256 := by
  simp only [fs_mount_instance, hc, Bool.true_eq_false, if_false]
  split_ifs <;> rfl

/-- The mount loop body never clears `ready`. -/
theorem fs_mount_instance_ready_mono (st : fs_struct) (r : MountRes)
    (hr : st.ready = true) :
    ((fs_mount_instance st r).1).ready = true := by
  simp only [fs_mount_instance]
  split_ifs <;> simp_all

/-- The mount loop body does not change whether an instance is
configured. -/
theorem fs_mount_instance_configured (st : fs_struct) (r : MountRes) :
    ((fs_mount_instance st r).1).configured = st.configured := by
  simp only [fs_mount_instance]
  split_ifs <;> rfl

/-- Unfolding one run from `fs_mount_times`. -/
theorem fs_mount_times_succ (st : fs_struct) (rs : Nat → MountRes) (n : Nat) :
    fs_mount_times st rs (n + 1)
      = (fs_mount_instance (fs_mount_times st rs n) (rs n)).1 := by
  unfold fs_mount_times
  rw [List.range_succ, List.foldl_append, List.foldl_cons, List.foldl_nil]

/-- Over `n` mount runs of a configured ready instance, `configured` and
`ready` persist and `mount_count` advances by `n` mod 256. -/
theorem fs_mount_times_spec (st : fs_struct) (rs : Nat → MountRes)
    (hc : st.configured = true) (hr : st.ready = true)
    (hmc : st.mount_count < 256) :
    ∀ n, (fs_mount_times st rs n).configured = true ∧
      (fs_mount_times st rs n).ready = true ∧
      (fs_mount_times st rs n).mount_count = (st.mount_count + n) % 256 := by
  intro n
  induction n with
  | zero =>
    refine ⟨hc, hr, ?_⟩
    show st.mount_count = (st.mount_count + 0) % 256
    omega
  | succ n ih =>
    rw [fs_mount_times_succ]
    obtain ⟨ihc, ihr, ihm⟩ := ih
    refine ⟨?_, fs_mount_instance_ready_mono _ _ ihr, ?_⟩
    · rw [fs_mount_instance_configured]; exact ihc
    · rw [fs_mount_instance_mount_count _ _ ihc, ihm]
      omega

/-- All six descriptor-taking operations reject a generation-mismatched
descriptor with `-1` (resp. no-op) and never invoke the engine. -/
theorem ops_reject (st : fs_struct) (hr : st.ready = true)
    (fd offs whence : Int) (hg : fd_gen fd ≠ (st.mount_count : Int))
    (ord owr : Int → Int) (ols : Int → Int → Int → Int)
    (ost : Int → Int × Int) :
    fs_read st fd ord = some (-1, false) ∧
    fs_write st fd owr = some (-1, false) ∧
    fs_lseek st fd offs whence ols = some (-1, false) ∧
    fs_fstat st fd ost = some (-1, none, false) ∧
    fs_flush st fd = some false ∧
    fs_close st fd = some false := by
  refine ⟨?_, ?_, ?_, ?_, ?_, ?_⟩ <;>
    simp [fs_read, fs_write, fs_lseek, fs_fstat, fs_flush, fs_close, hr, hg]

/-! ### Claim theorems -/

/-- C1: every descriptor-taking operation (`fs_read`, `fs_write`,
`fs_lseek`, `fs_fstat`, `fs_flush`, `fs_close`) on a ready instance fails
with the invalid-descriptor result (`-1` for the value-returning ones) and
does not invoke any engine primitive when the generation in bits 16–23 of
the descriptor differs from the instance's current `mount_count`; in
particular a descriptor issued by `fs_open` before a remount is rejected
by every operation after the remount. -/
theorem fs_stale_descriptor_rejected
    (st : fs_struct) (hr : st.ready = true) (hmc : st.mount_count < 256)
    (hc : st.configured = true) (fd sfd offs whence : Int)
    (h0 : 0 ≤ sfd) (hs : sfd < 65536)
    (ord owr : Int → Int) (ols : Int → Int → Int → Int)
    (ost : Int → Int × Int) (r : MountRes) :
    (fd_gen fd ≠ (st.mount_count : Int) →
      fs_read st fd ord = some (-1, false) ∧
      fs_write st fd owr = some (-1, false) ∧
      fs_lseek st fd offs whence ols = some (-1, false) ∧
      fs_fstat st fd ost = some (-1, none, false) ∧
      fs_flush st fd = some false ∧
      fs_close st fd = some false) ∧
    (∀ fd', fs_open st sfd = some fd' →
      fs_read (fs_mount_instance st r).1 fd' ord = some (-1, false) ∧
      fs_write (fs_mount_instance st r).1 fd' owr = some (-1, false) ∧
      fs_lseek (fs_mount_instance st r).1 fd' offs whence ols
        = some (-1, false) ∧
      fs_fstat (fs_mount_instance st r).1 fd' ost = some (-1, none, false) ∧
      fs_flush (fs_mount_instance st r).1 fd' = some false ∧
      fs_close (fs_mount_instance st r).1 fd' = some false) := by
  constructor
  · intro hg
    exact ops_reject st hr fd offs whence hg ord owr ols ost
  · intro fd' hfd'
    have hnn : ¬ sfd < 0 := not_lt.mpr h0
    have heq : fd' = (((st.mount_count <<< 16) ||| sfd.toNat : Nat) : Int) := by
      simp [fs_open, hr, hnn] at hfd'
      exact hfd'.symm
    have hgen : fd_gen fd' = (st.mount_count : Int) := by
      rw [heq]
      exact fd_gen_stamp _ _ hmc (by omega)
    have hr' : (fs_mount_instance st r).1.ready = true :=
      fs_mount_instance_ready_mono st r hr
    have hm' : (fs_mount_instance st r).1.mount_count
        = (st.mount_count + 1) % 256 :=
      fs_mount_instance_mount_count st r hc
    have hne : fd_gen fd' ≠ ((fs_mount_instance st r).1.mount_count : Int) := by
      rw [hgen, hm']
      intro hbad
      have : st.mount_count = (st.mount_count + 1) % 256 := by
        exact_mod_cast hbad
      omega
    exact ops_reject _ hr' fd' offs whence hne ord owr ols ost

/-- Witness for C1 at a concrete ready instance, a concrete mismatched
descriptor and a concrete freshly issued descriptor. -/
theorem fs_stale_descriptor_rejected_witness :
    st_ready.ready = true ∧ st_ready.mount_count < 256 ∧
    st_ready.configured = true ∧ (0 : Int) ≤ 7 ∧ (7 : Int) < 65536 ∧
    ((fd_gen 999999 ≠ (st_ready.mount_count : Int) →
      fs_read st_ready 999999 (fun _ => 0) = some (-1, false) ∧
      fs_write st_ready 999999 (fun _ => 0) = some (-1, false) ∧
      fs_lseek st_ready 999999 0 0 (fun _ _ _ => 0) = some (-1, false) ∧
      fs_fstat st_ready 999999 (fun _ => (0, 0)) = some (-1, none, false) ∧
      fs_flush st_ready 999999 = some false ∧
      fs_close st_ready 999999 = some false) ∧
    (∀ fd', fs_open st_ready 7 = some fd' →
      fs_read (fs_mount_instance st_ready ⟨0, 0, 0, 0⟩).1 fd' (fun _ => 0)
        = some (-1, false) ∧
      fs_write (fs_mount_instance st_ready ⟨0, 0, 0, 0⟩).1 fd' (fun _ => 0)
        = some (-1, false) ∧
      fs_lseek (fs_mount_instance st_ready ⟨0, 0, 0, 0⟩).1 fd' 0 0
        (fun _ _ _ => 0) = some (-1, false) ∧
      fs_fstat (fs_mount_instance st_ready ⟨0, 0, 0, 0⟩).1 fd'
        (fun _ => (0, 0)) = some (-1, none, false) ∧
      fs_flush (fs_mount_instance st_ready ⟨0, 0, 0, 0⟩).1 fd' = some false ∧
      fs_close (fs_mount_instance st_ready ⟨0, 0, 0, 0⟩).1 fd'
        = some false)) :=
  ⟨rfl, by decide, rfl, by decide, by decide,
    fs_stale_descriptor_rejected st_ready rfl (by decide) rfl 999999 7 0 0
      (by decide) (by decide) (fun _ => 0) (fun _ => 0) (fun _ _ _ => 0)
      (fun _ => (0, 0)) ⟨0, 0, 0, 0⟩⟩

/-- C2: after the mount loop body runs on a configured instance that is
not yet ready, the instance is ready only if the initial mount or the
post-format retry mount returned `SPIFFS_OK`; if both failed, it remains
not-ready. -/
theorem fs_mount_ready_only_on_success (st : fs_struct)
    (hc : st.configured = true) (hr : st.ready = false) (r : MountRes) :
    ((fs_mount_instance st r).1.ready = true →
      r.mnt1 = SPIFFS_OK ∨ r.mnt2 = SPIFFS_OK) ∧
    (r.mnt1 ≠ SPIFFS_OK → r.mnt2 ≠ SPIFFS_OK →
      (fs_mount_instance st r).1.ready = false) := by
  constructor
  · intro h
    by_cases h1 : r.mnt1 = SPIFFS_OK
    · exact Or.inl h1
    · by_cases h2 : r.mnt2 = SPIFFS_OK
      · exact Or.inr h2
      · simp [fs_mount_instance, hc, h1, h2, hr] at h
  · intro h1 h2
    simp [fs_mount_instance, hc, h1, h2, hr]

/-- Witness for C2: a fresh configured instance whose initial mount fails
and whose retry mount succeeds. -/
theorem fs_mount_ready_only_on_success_witness :
    (fs_init true).configured = true ∧ (fs_init true).ready = false ∧
    (((fs_mount_instance (fs_init true) ⟨-1, 0, 0, 0⟩).1.ready = true →
        (-1 : Int) = SPIFFS_OK ∨ (0 : Int) = SPIFFS_OK) ∧
      ((-1 : Int) ≠ SPIFFS_OK → (0 : Int) ≠ SPIFFS_OK →
        (fs_mount_instance (fs_init true) ⟨-1, 0, 0, 0⟩).1.ready = false)) :=
  ⟨rfl, rfl, fs_mount_ready_only_on_success (fs_init true) rfl rfl ⟨-1, 0, 0, 0⟩⟩

/-- C3: on a configured instance one mount loop body run performs at most
one format, exactly one retry mount after a failed initial mount (two
mount calls and one format in total, and no further retries), no format
and a single mount call when the initial mount succeeded, and bumps
`mount_count` exactly once (as a `uint8_t`) regardless of the outcome. -/
theorem fs_mount_single_format_retry (st : fs_struct)
    (hc : st.configured = true) (r : MountRes) :
    (fs_mount_instance st r).2.count EngineCall.format ≤ 1 ∧
    (r.mnt1 ≠ SPIFFS_OK →
      (fs_mount_instance st r).2.count EngineCall.mount = 2 ∧
      (fs_mount_instance st r).2.count EngineCall.format = 1) ∧
    (r.mnt1 = SPIFFS_OK →
      (fs_mount_instance st r).2.count EngineCall.mount = 1 ∧
      (fs_mount_instance st r).2.count EngineCall.format = 0) ∧
    (fs_mount_instance st r).1.mount_count = (st.mount_count + 1) % 256 := by
  refine ⟨?_, ?_, ?_, fs_mount_instance_mount_count st r hc⟩ <;>
  · simp only [fs_mount_instance, hc, Bool.true_eq_false, if_false]
    split_ifs <;> simp_all

/-- Witness for C3 on a fresh instance whose initial mount fails. -/
theorem fs_mount_single_format_retry_witness :
    (fs_init false).configured = true ∧
    ((fs_mount_instance (fs_init false) ⟨-1, 0, -1, 0⟩).2.count
        EngineCall.format ≤ 1 ∧
      ((-1 : Int) ≠ SPIFFS_OK →
        (fs_mount_instance (fs_init false) ⟨-1, 0, -1, 0⟩).2.count
            EngineCall.mount = 2 ∧
          (fs_mount_instance (fs_init false) ⟨-1, 0, -1, 0⟩).2.count
            EngineCall.format = 1) ∧
      ((-1 : Int) = SPIFFS_OK →
        (fs_mount_instance (fs_init false) ⟨-1, 0, -1, 0⟩).2.count
            EngineCall.mount = 1 ∧
          (fs_mount_instance (fs_init false) ⟨-1, 0, -1, 0⟩).2.count
            EngineCall.format = 0) ∧
      (fs_mount_instance (fs_init false) ⟨-1, 0, -1, 0⟩).1.mount_count
        = ((fs_init false).mount_count + 1) % 256) :=
  ⟨rfl, fs_mount_single_format_retry (fs_init false) rfl ⟨-1, 0, -1, 0⟩⟩

/-- C8: on a ready instance `fs_open` returns
`(mount_count << 16) | sfd` for a nonnegative engine descriptor `sfd`
(a value whose embedded generation is the current `mount_count` and whose
low 16 bits are `sfd`), and returns a negative engine result unchanged,
without stamping. -/
theorem fs_open_stamps_generation (st : fs_struct) (hr : st.ready = true)
    (hmc : st.mount_count < 256) (sfd : Int) (hs : sfd < 65536) :
    (sfd < 0 → fs_open st sfd = some sfd) ∧
    (0 ≤ sfd →
      fs_open st sfd
        = some (((st.mount_count <<< 16) ||| sfd.toNat : Nat) : Int) ∧
      ∃ fd, fs_open st sfd = some fd ∧ 0 ≤ fd ∧
        fd_gen fd = (st.mount_count : Int) ∧ fd_raw fd = sfd) := by
  constructor
  · intro hneg
    simp [fs_open, hr, hneg]
  · intro hpos
    have hnn : ¬ sfd < 0 := not_lt.mpr hpos
    have hopen : fs_open st sfd
        = some (((st.mount_count <<< 16) ||| sfd.toNat : Nat) : Int) := by
      simp [fs_open, hr, hnn]
    refine ⟨hopen, _, hopen, Int.natCast_nonneg _, ?_, ?_⟩
    · exact fd_gen_stamp _ _ hmc (by omega)
    · rw [fd_raw_stamp _ _ (by omega)]
      exact Int.toNat_of_nonneg hpos

/-- Witness for C8 at a concrete ready instance and `sfd = 5`. -/
theorem fs_open_stamps_generation_witness :
    st_ready.ready = true ∧ st_ready.mount_count < 256 ∧ (5 : Int) < 65536 ∧
    (((5 : Int) < 0 → fs_open st_ready 5 = some 5) ∧
      (0 ≤ (5 : Int) →
        fs_open st_ready 5
          = some (((st_ready.mount_count <<< 16) ||| (5 : Int).toNat : Nat) : Int) ∧
        ∃ fd, fs_open st_ready 5 = some fd ∧ 0 ≤ fd ∧
          fd_gen fd = (st_ready.mount_count : Int) ∧ fd_raw fd = 5)) :=
  ⟨rfl, by decide, by decide,
    fs_open_stamps_generation st_ready rfl (by decide) 5 (by decide)⟩

/-- C10: the generation stamp is 8 bits wide — `(fd >> 16) & 0xFF` always
lies in `[0, 256)` and `mount_count` advances mod 256 — so a descriptor
issued now is rejected throughout the next 255 mount runs but is accepted
again by the validation check after exactly 256 further mount runs. -/
theorem fs_generation_wraparound_256
    (st : fs_struct) (hr : st.ready = true) (hmc : st.mount_count < 256)
    (hc : st.configured = true) (sfd : Int) (h0 : 0 ≤ sfd)
    (hs : sfd < 65536) (rs : Nat → MountRes) (ord : Int → Int) :
    (∀ fd : Int, 0 ≤ fd_gen fd ∧ fd_gen fd < 256) ∧
    (∀ fd', fs_open st sfd = some fd' →
      ((fs_mount_times st rs 256).mount_count = st.mount_count ∧
        fs_read (fs_mount_times st rs 256) fd' ord = some (ord sfd, true)) ∧
      (∀ k, 0 < k → k < 256 →
        fs_read (fs_mount_times st rs k) fd' ord = some (-1, false))) := by
  constructor
  · intro fd
    unfold fd_gen
    exact ⟨Int.emod_nonneg _ (by norm_num), Int.emod_lt_of_pos _ (by norm_num)⟩
  · intro fd' hfd'
    have hnn : ¬ sfd < 0 := not_lt.mpr h0
    have heq : fd' = (((st.mount_count <<< 16) ||| sfd.toNat : Nat) : Int) := by
      simp [fs_open, hr, hnn] at hfd'
      exact hfd'.symm
    have hgen : fd_gen fd' = (st.mount_count : Int) := by
      rw [heq]
      exact fd_gen_stamp _ _ hmc (by omega)
    have hraw : fd_raw fd' = sfd := by
      rw [heq, fd_raw_stamp _ _ (by omega)]
      exact Int.toNat_of_nonneg h0
    constructor
    · obtain ⟨hc256, hr256, hm256⟩ := fs_mount_times_spec st rs hc hr hmc 256
      have hcnt : (fs_mount_times st rs 256).mount_count = st.mount_count := by
        rw [hm256]; omega
      refine ⟨hcnt, ?_⟩
      have : ¬ fd_gen fd' ≠ ((fs_mount_times st rs 256).mount_count : Int) := by
        rw [hgen, hcnt]
        simp
      simp [fs_read, hr256, this, hraw]
    · intro k hk0 hk256
      obtain ⟨hck, hrk, hmk⟩ := fs_mount_times_spec st rs hc hr hmc k
      have hne : fd_gen fd' ≠ ((fs_mount_times st rs k).mount_count : Int) := by
        rw [hgen, hmk]
        intro hbad
        have : st.mount_count = (st.mount_count + k) % 256 := by
          exact_mod_cast hbad
        omega
      simp [fs_read, hrk, hne]

/-- Witness for C10 at a concrete ready instance and `sfd = 7`. -/
theorem fs_generation_wraparound_256_witness :
    st_ready.ready = true ∧ st_ready.mount_count < 256 ∧
    st_ready.configured = true ∧ (0 : Int) ≤ 7 ∧ (7 : Int) < 65536 ∧
    ((∀ fd : Int, 0 ≤ fd_gen fd ∧ fd_gen fd < 256) ∧
      (∀ fd', fs_open st_ready 7 = some fd' →
        ((fs_mount_times st_ready (fun _ => ⟨0, 0, 0, 0⟩) 256).mount_count
            = st_ready.mount_count ∧
          fs_read (fs_mount_times st_ready (fun _ => ⟨0, 0, 0, 0⟩) 256) fd'
            (fun x => x) = some ((fun x : Int => x) 7, true)) ∧
        (∀ k, 0 < k → k < 256 →
          fs_read (fs_mount_times st_ready (fun _ => ⟨0, 0, 0, 0⟩) k) fd'
            (fun x => x) = some (-1, false)))) :=
  ⟨rfl, by decide, rfl, by decide, by decide,
    fs_generation_wraparound_256 st_ready rfl (by decide) rfl 7 (by decide)
      (by decide) (fun _ => ⟨0, 0, 0, 0⟩) (fun x => x)⟩

/-- C6: with `wait = 0` the record enqueue entry points never block —
against a full queue they return 0 immediately — and whenever a request is
accepted (with any `wait`) the worker is signalled with the queue's flag
and the requested length `len` is returned. -/
theorem fs_record_nonblocking_acceptance
    (fsnr len : Int) (q : List Nat) (rid : Nat) (pnull cnull : Bool)
    (w : Nat) :
    fs_read_record fsnr pnull cnull len 0 q rid ≠ RwOutcome.blocked ∧
    fs_write_record fsnr cnull len 0 q rid ≠ RwOutcome.blocked ∧
    (MAX_Q_RD_COUNT ≤ q.length →
      fs_read_record fsnr pnull cnull len 0 q rid = RwOutcome.rejected 0) ∧
    (MAX_Q_WR_COUNT ≤ q.length →
      fs_write_record fsnr cnull len 0 q rid = RwOutcome.rejected 0) ∧
    (∀ q' fl ret, fs_read_record fsnr pnull cnull len w q rid
        = RwOutcome.accepted q' fl ret →
      ret = len ∧ fl = FS_READ_FLAG ∧ q' = q ++ [rid]) ∧
    (∀ q' fl ret, fs_write_record fsnr cnull len w q rid
        = RwOutcome.accepted q' fl ret →
      ret = len ∧ fl = FS_WRITE_FLAG ∧ q' = q ++ [rid]) := by
  refine ⟨?_, ?_, ?_, ?_, ?_, ?_⟩
  · unfold fs_read_record fs_rw_record
    split_ifs <;> simp_all
  · unfold fs_write_record fs_rw_record
    split_ifs <;> simp_all
  · intro hfull
    simp only [MAX_Q_RD_COUNT] at hfull
    unfold fs_read_record fs_rw_record MAX_Q_RD_COUNT
    split_ifs <;> first | rfl | omega
  · intro hfull
    simp only [MAX_Q_WR_COUNT] at hfull
    unfold fs_write_record fs_rw_record MAX_Q_WR_COUNT
    split_ifs <;> first | rfl | omega
  · intro q' fl ret h
    unfold fs_read_record fs_rw_record at h
    split_ifs at h <;> simp_all [FS_READ_DATA, FS_WRITE_DATA]
  · intro q' fl ret h
    unfold fs_write_record fs_rw_record at h
    split_ifs at h <;> simp_all [FS_READ_DATA, FS_WRITE_DATA]

/-- Witness for C6 at concrete arguments: an empty queue and a full
queue of length 10. -/
theorem fs_record_nonblocking_acceptance_witness :
    fs_read_record 0 false false 5 0 (List.range 10) 10
        ≠ RwOutcome.blocked ∧
    fs_write_record 0 false 5 0 [] 0 ≠ RwOutcome.blocked ∧
    fs_read_record 0 false false 5 0 (List.range 10) 10
        = RwOutcome.rejected 0 ∧
    (∀ q' fl ret, fs_write_record 0 false 5 1 [] 0
        = RwOutcome.accepted q' fl ret →
      ret = 5 ∧ fl = FS_WRITE_FLAG ∧ q' = [] ++ [0]) :=
  ⟨(fs_record_nonblocking_acceptance 0 5 (List.range 10) 10 false false 0).1,
    (fs_record_nonblocking_acceptance 0 5 [] 0 false false 1).2.1,
    (fs_record_nonblocking_acceptance 0 5 (List.range 10) 10 false false
      0).2.2.1 (by decide),
    (fs_record_nonblocking_acceptance 0 5 [] 0 false false 1).2.2.2.2.2⟩

/-- C7: when the worker processes a dequeued read request on a ready
instance and the open fails (negative engine descriptor), it reports 0 to
the callback without attempting a read; when the open succeeds it reads,
closes, and passes the byte count returned by the read to the callback. -/
theorem fs_worker_read_reporting (st : fs_struct) (hr : st.ready = true)
    (hmc : st.mount_count < 256) (sfd : Int) (hs : sfd < 65536)
    (ord : Int → Int) :
    (sfd < 0 → fs_thread_read_case st sfd ord = some ([0], false, false)) ∧
    (0 ≤ sfd →
      fs_thread_read_case st sfd ord = some ([ord sfd], true, true)) := by
  constructor
  · intro hneg
    simp [fs_thread_read_case, fs_open, hr, hneg]
  · intro hpos
    have hnn : ¬ sfd < 0 := not_lt.mpr hpos
    have hgen := fd_gen_stamp st.mount_count sfd.toNat hmc (by omega)
    have hraw := fd_raw_stamp st.mount_count sfd.toNat (by omega)
    have hfd : fs_open st sfd
        = some (((st.mount_count <<< 16) ||| sfd.toNat : Nat) : Int) := by
      simp [fs_open, hr, hnn]
    have hfd0 : ¬ (((st.mount_count <<< 16) ||| sfd.toNat : Nat) : Int) < 0 :=
      not_lt.mpr (Int.natCast_nonneg _)
    unfold fs_thread_read_case
    rw [hfd]
    simp [fs_read, fs_close, hr, hfd0, hgen, hraw, Int.toNat_of_nonneg hpos]

/-- Witness for C7: a missing file (`sfd = -3`) and an existing file
(`sfd = 5`) on a concrete ready instance. -/
theorem fs_worker_read_reporting_witness :
    st_ready.ready = true ∧ st_ready.mount_count < 256 ∧
    (((-3 : Int) < 0 →
        fs_thread_read_case st_ready (-3) (fun _ => 4)
          = some ([0], false, false)) ∧
      (0 ≤ (-3 : Int) →
        fs_thread_read_case st_ready (-3) (fun _ => 4)
          = some ([(fun _ : Int => (4 : Int)) (-3)], true, true))) ∧
    (((5 : Int) < 0 →
        fs_thread_read_case st_ready 5 (fun _ => 4)
          = some ([0], false, false)) ∧
      (0 ≤ (5 : Int) →
        fs_thread_read_case st_ready 5 (fun _ => 4)
          = some ([(fun _ : Int => (4 : Int)) 5], true, true))) :=
  ⟨rfl, by decide,
    fs_worker_read_reporting st_ready rfl (by decide) (-3) (by decide)
      (fun _ => 4),
    fs_worker_read_reporting st_ready rfl (by decide) 5 (by decide)
      (fun _ => 4)⟩

/-- Inductive invariant of the queue/worker system: on each kind, the
dequeue-processed requests followed by the still-queued requests are
exactly the accepted requests in acceptance order. -/
theorem wreach_processed_invariant (cap : Nat) (s : WorkerState)
    (h : WReach cap s) :
    s.wr_accepted = s.wr_processed ++ s.wr_queue ∧
    s.rd_accepted = s.rd_processed ++ s.rd_queue := by
  induction h with
  | init => simp [WorkerState.init]
  | step s t hs hstep ih =>
    obtain ⟨ih1, ih2⟩ := ih
    cases hstep with
    | put_wr hlen =>
      refine ⟨?_, ih2⟩
      show s.wr_accepted ++ [s.wr_accepted.length]
        = s.wr_processed ++ (s.wr_queue ++ [s.wr_accepted.length])
      rw [ih1, List.append_assoc]
    | signal_wr hp => exact ⟨ih1, ih2⟩
    | put_rd hlen =>
      refine ⟨ih1, ?_⟩
      show s.rd_accepted ++ [s.rd_accepted.length]
        = s.rd_processed ++ (s.rd_queue ++ [s.rd_accepted.length])
      rw [ih2, List.append_assoc]
    | signal_rd hp => exact ⟨ih1, ih2⟩
    | wake_wr_deq r rest hflag hq =>
      refine ⟨?_, ih2⟩
      show s.wr_accepted = (s.wr_processed ++ [r]) ++ rest
      rw [ih1, hq, List.append_assoc]
      rfl
    | wake_wr_empty p hflag hq hp => exact ⟨ih1, ih2⟩
    | wake_rd_deq r rest hflag hq =>
      refine ⟨ih1, ?_⟩
      show s.rd_accepted = (s.rd_processed ++ [r]) ++ rest
      rw [ih2, hq, List.append_assoc]
      rfl
    | wake_rd_empty p hflag hq hp => exact ⟨ih1, ih2⟩

/-- The interleaving that reaches `w_bug`: producer 1 puts and signals
write request 0; producer 2 puts write request 1 and is preempted before
its signal; the worker, woken by producer 1's signal, dequeues request 0,
sees `osMessageQueueGetCount > 0` and re-raises its own flag, then
dequeues request 1; producer 2's delayed signal now wakes the worker on an
empty queue and the `osErrorResource` branch invokes the stale `params`
callback — request 1's callback, a second time. -/
theorem wreach_w_bug : WReach 10 w_bug := by
  have h0 : WReach 10 WorkerState.init := WReach.init
  have h1 : WReach 10
      ⟨[0], [], false, false, 1, 0, [0], [], [], [], [], none⟩ :=
    WReach.step _ _ h0 (WStep.put_wr _ (by decide))
  have h2 : WReach 10
      ⟨[0], [], true, false, 0, 0, [0], [], [], [], [], none⟩ :=
    WReach.step _ _ h1 (WStep.signal_wr _ (by decide))
  have h3 : WReach 10
      ⟨[0, 1], [], true, false, 1, 0, [0, 1], [], [], [], [], none⟩ :=
    WReach.step _ _ h2 (WStep.put_wr _ (by decide))
  have h4 : WReach 10
      ⟨[1], [], true, false, 1, 0, [0, 1], [], [0], [],
        [(true, 0)], some (true, 0)⟩ :=
    WReach.step _ _ h3 (WStep.wake_wr_deq _ 0 [1] rfl rfl)
  have h5 : WReach 10
      ⟨[], [], false, false, 1, 0, [0, 1], [], [0, 1], [],
        [(true, 0), (true, 1)], some (true, 1)⟩ :=
    WReach.step _ _ h4 (WStep.wake_wr_deq _ 1 [] rfl rfl)
  have h6 : WReach 10
      ⟨[], [], true, false, 0, 0, [0, 1], [], [0, 1], [],
        [(true, 0), (true, 1)], some (true, 1)⟩ :=
    WReach.step _ _ h5 (WStep.signal_wr _ (by decide))
  exact WReach.step _ _ h6 (WStep.wake_wr_empty _ (true, 1) rfl rfl rfl)

/-- Every processing path of the worker's write branch invokes exactly
one callback. -/
theorem fs_thread_write_case_one_callback (st : fs_struct)
    (hready : st.ready = true) (sfd_wr sfd_cr : Int) (owr : Int → Int) :
    ∃ out, fs_thread_write_case st sfd_wr sfd_cr owr = some out ∧
      out.1.length = 1 := by
  unfold fs_thread_write_case
  by_cases hwr : sfd_wr < 0 <;> by_cases hcr : sfd_cr < 0 <;>
    simp [fs_open, fs_write, fs_close, hready, hwr, hcr] <;>
    split_ifs <;> simp

/-- Every processing path of the worker's read branch invokes exactly
one callback. -/
theorem fs_thread_read_case_one_callback (st : fs_struct)
    (hready : st.ready = true) (sfd : Int) (ord : Int → Int) :
    ∃ out, fs_thread_read_case st sfd ord = some out ∧
      out.1.length = 1 := by
  unfold fs_thread_read_case
  by_cases hrd : sfd < 0
  · simp [fs_open, fs_read, fs_close, hready, hrd]
  · simp only [fs_open, fs_read, fs_close, hready, hrd]
    simp
    split_ifs <;> simp

/-- C4: the program violates the exactly-once callback contract.  With
`osMessageQueuePut` and `osThreadFlagsSet` as separate steps, the state
`w_bug` is reachable: two write requests are accepted, yet the callback of
write request 1 has been invoked twice — once from its `osOK` processing
and once more from the `osErrorResource` branch reading the stale `params`
after the producer's delayed signal woke the worker on an empty queue. -/
theorem fs_record_stale_double_callback :
    WReach 10 w_bug ∧
    w_bug.wr_accepted = [0, 1] ∧
    w_bug.completed = [(true, 0), (true, 1), (true, 1)] ∧
    w_bug.completed.count (true, 1) = 2 :=
  ⟨wreach_w_bug, rfl, rfl, by decide⟩

/-- Counterexample to C5 as stated: in the reachable state `w_bug` the
write-kind callback invocation sequence is `[0, 1, 1]`, which is not a
prefix of the acceptance sequence `[0, 1]` — the stale duplicate
invocation breaks exactly-once FIFO completion order. -/
theorem fs_record_fifo_counterexample :
    WReach 10 w_bug ∧
    (w_bug.completed.filter (fun e => e.1)).map (fun e => e.2) = [0, 1, 1] ∧
    ¬ ((w_bug.completed.filter (fun e => e.1)).map (fun e => e.2)
        <+: w_bug.wr_accepted) := by
  refine ⟨wreach_w_bug, by decide, ?_⟩
  intro hpre
  obtain ⟨t, ht⟩ := hpre
  have hlen := congrArg List.length ht
  simp [w_bug] at hlen

/-- C5 (amended): completions performed by actual dequeue processing are
in FIFO acceptance order — in every reachable state, on each kind, the
sequence of callbacks made from the `osOK` dequeue-processing branch is a
prefix of that kind's acceptance sequence; only the stale re-invocations
from the failed-dequeue branches fall outside this order. -/
theorem fs_record_fifo_processed (cap : Nat) (s : WorkerState)
    (h : WReach cap s) :
    s.wr_processed <+: s.wr_accepted ∧ s.rd_processed <+: s.rd_accepted := by
  obtain ⟨h1, h2⟩ := wreach_processed_invariant cap s h
  exact ⟨⟨s.wr_queue, h1.symm⟩, ⟨s.rd_queue, h2.symm⟩⟩

/-- Witness for the amended C5 at the concrete reachable state `w_bug`,
where the dequeue-processed write requests `[0, 1]` are exactly the
accepted ones in order. -/
theorem fs_record_fifo_processed_witness :
    w_bug.wr_processed <+: w_bug.wr_accepted ∧
    w_bug.rd_processed <+: w_bug.rd_accepted :=
  fs_record_fifo_processed 10 w_bug wreach_w_bug

/-- Composing `locks_after` over an appended trace. -/
theorem locks_after_append (xs ys : List DrvAct) (ms ls : List Nat) :
    locks_after (xs ++ ys) ms ls
      = locks_after ys (locks_after xs ms ls).1 (locks_after xs ms ls).2 := by
  induction xs generalizing ms ls with
  | nil => simp [locks_after]
  | cons a rest ih => cases a <;> simp [locks_after, ih]

/-- Composing `locks_ok` over an appended trace. -/
theorem locks_ok_append (xs ys : List DrvAct) (ms ls : List Nat) :
    locks_ok (xs ++ ys) ms ls
      = (locks_ok xs ms ls &&
          locks_ok ys (locks_after xs ms ls).1 (locks_after xs ms ls).2) := by
  induction xs generalizing ms ls with
  | nil => simp [locks_ok, locks_after]
  | cons a rest ih => cases a <;> simp [locks_ok, locks_after, ih, Bool.and_assoc]

/-- One per-instance suspend block respects lock holding from any starting
lock state and leaves the lock state unchanged. -/
theorem suspend_block_ok (fsv : Nat → fs_struct) (f : Nat) (ms ls : List Nat) :
    locks_ok (fs_thread_suspend_block fsv f) ms ls = true ∧
    locks_after (fs_thread_suspend_block fsv f) ms ls = (ms, ls) := by
  unfold fs_thread_suspend_block
  by_cases hsusp : (fsv f).has_suspend <;>
    simp [hsusp, locks_ok, locks_after]

/-- Any flatMap of suspend blocks respects lock holding and restores the
lock state. -/
theorem suspend_blocks_ok (fsv : Nat → fs_struct) (flags : Nat) :
    ∀ (l : List Nat) (ms ls : List Nat),
      locks_ok (l.flatMap fun f =>
        if flags &&& (1 <<< f) ≠ 0 then fs_thread_suspend_block fsv f
        else []) ms ls = true ∧
      locks_after (l.flatMap fun f =>
        if flags &&& (1 <<< f) ≠ 0 then fs_thread_suspend_block fsv f
        else []) ms ls = (ms, ls) := by
  intro l
  induction l with
  | nil =>
    intro ms ls
    simp [locks_ok, locks_after]
  | cons f rest ih =>
    intro ms ls
    rw [List.flatMap_cons, locks_ok_append, locks_after_append]
    by_cases hbit : flags &&& (1 <<< f) ≠ 0
    · rw [if_pos hbit, (suspend_block_ok fsv f ms ls).1,
        (suspend_block_ok fsv f ms ls).2]
      simp only [Bool.true_and]
      exact ih ms ls
    · rw [if_neg hbit]
      simp only [locks_ok, locks_after, Bool.true_and]
      exact ih ms ls

/-- C9: the suspend timer callback performs no driver suspend itself — it
only raises the instance's suspend thread-flag — and in the worker's
suspend branch every `driver->suspend()` call happens while both that
instance's mutex and the driver lock are held, with both released by the
end of the branch. -/
theorem fs_suspend_only_from_worker (f : Nat) (fsv : Nat → fs_struct)
    (flags count : Nat) :
    (∀ g, DrvAct.drv_suspend g ∉ fs_suspend_timer_cb f) ∧
    fs_suspend_timer_cb f = [DrvAct.thread_flag (1 <<< f)] ∧
    locks_ok (fs_thread_suspend_branch fsv flags count) [] [] = true ∧
    locks_after (fs_thread_suspend_branch fsv flags count) [] [] = ([], []) := by
  refine ⟨?_, rfl, ?_, ?_⟩
  · intro g hmem
    simp [fs_suspend_timer_cb] at hmem
  · exact (suspend_blocks_ok fsv flags (List.range count) [] []).1
  · exact (suspend_blocks_ok fsv flags (List.range count) [] []).2

end NodeFs
